import Mathlib

/-!
Verification of `qp_shotgun/humann2/humann2.py`.

The file shallowly embeds `generate_humann2_analysis_commands` and the
`humann2` orchestrator.  Python strings are modelled as Lean `String`s,
manipulated through their underlying character lists so that every
definition reduces inside the kernel; Python dicts that the code iterates
or mutates (`sn_by_rp`, `parameters`) are modelled as association lists in
iteration order; raised exceptions are modelled with `Except`/`Option`.
-/

namespace QpShotgun

/-- Models Python `str.split(sep)` on character lists: always returns at
least one (possibly empty) piece. -/
def splitOnChar (sep : Char) : List Char → List (List Char)
  | [] => [[]]
  | c :: rest =>
    match splitOnChar sep rest with
    | [] => [[c]]
    | h :: t => if c == sep then [] :: h :: t else (c :: h) :: t

/-- Joins pieces with a dot, the inverse direction of `splitOnChar '.'`;
used to model Python `str.rsplit('.', 2)` via a full split. -/
def joinWithDot : List (List Char) → List Char
  | [] => []
  | [p] => p
  | p :: q :: rest => p ++ '.' :: joinWithDot (q :: rest)

/-- Models Python `os.path.basename`: the part after the last `/`. -/
def basenameL (p : List Char) : List Char :=
  (splitOnChar '/' p).getLastD []

/-- Models Python `str.lower()` (ASCII, which is all the code relies on). -/
def toLowerL (l : List Char) : List Char :=
  l.map Char.toLower

/-- Models Python `str.rsplit('.', 2)`: at most two splits, counted from
the right, so the result has at most three pieces. -/
def rsplitDot2 (l : List Char) : List (List Char) :=
  let parts := splitOnChar '.' l
  if parts.length ≤ 3 then parts
  else joinWithDot (parts.take (parts.length - 2)) :: parts.drop (parts.length - 2)

/-- Whether `needle` occurs at the head of `hay`. -/
def startsWithL : List Char → List Char → Bool
  | [], _ => true
  | _ :: _, [] => false
  | a :: as, b :: bs => a == b && startsWithL as bs

/-- Index of the last occurrence of `needle` in `hay`, models Python
`str.rindex` (which raises `ValueError`, here `none`, when absent). -/
def lastIdxOf (needle : List Char) : List Char → Option Nat
  | [] => none
  | c :: rest =>
    match lastIdxOf needle rest with
    | some n => some (n + 1)
    | none => if startsWithL needle (c :: rest) then some 0 else none

/-- Index of the first occurrence of `needle` in `hay`. -/
def firstIdxOf (needle : List Char) : List Char → Option Nat
  | [] => none
  | c :: rest =>
    if startsWithL needle (c :: rest) then some 0
    else (firstIdxOf needle rest).map (· + 1)

def fastqChars : List Char := ['f', 'a', 's', 't', 'q']

def dotFastqChars : List Char := ['.', 'f', 'a', 's', 't', 'q']

/-- Run-prefix extraction of `generate_humann2_analysis_commands`
(humann2.py lines 63-66):

    f = basename(fname)
    if 'fastq' in f.lower().rsplit('.', 2):
        f = f[:f.lower().rindex('.fastq')]

`none` models the uncaught `ValueError` that `rindex` raises when
`'fastq'` is a whole dot-component of the tail but `'.fastq'` is not a
substring (e.g. a bare `"fastq.gz"`). -/
def runPrefOf (fname : String) : Option String :=
  let fb := basenameL fname.data
  let low := toLowerL fb
  if (rsplitDot2 low).contains fastqChars then
    match lastIdxOf dotFastqChars low with
    | some n => some ⟨fb.take n⟩
    | none => none
  else some ⟨fb⟩

/-- The run-prefix extraction exactly as the spec sentence words it
(refinement comparison only): strip from the FIRST occurrence of a
recognized FASTQ suffix (`.fastq`, case-insensitive) onward. -/
def runPrefFirstOcc (fname : String) : String :=
  let fb := basenameL fname.data
  match firstIdxOf dotFastqChars (toLowerL fb) with
  | some n => ⟨fb.take n⟩
  | none => ⟨fb⟩

/-- Python's string comparison: lexicographic by code point, expressed on
the underlying character lists (the builtin `String.ltb` iterator does not
reduce in the kernel, the list order does). -/
def strLe (a b : String) : Prop :=
  a.data ≤ b.data

instance : DecidableRel strLe := fun a b =>
  (inferInstance : Decidable (a.data ≤ b.data))

instance : IsTotal String strLe :=
  ⟨fun a b => le_total a.data b.data⟩

instance : IsTrans String strLe :=
  ⟨fun _ _ _ h1 h2 => le_trans h1 h2⟩

/-- Models Python `list.sort()` on strings: a stable ascending sort by
code points (insertion sort; stability is irrelevant for equal strings). -/
def sortStr (l : List String) : List String :=
  l.insertionSort strLe

/-- Association-list lookup, modelling `d[k]` on the dicts the code
mutates (`none` models `KeyError`). -/
def lookupA (m : List (String × String)) (k : String) : Option String :=
  match m with
  | [] => none
  | (k2, v) :: rest => if k2 = k then some v else lookupA rest k

/-- Association-list deletion of the first binding of `k`, modelling
`del d[k]` after a successful lookup. -/
def eraseA (m : List (String × String)) (k : String) : List (String × String) :=
  match m with
  | [] => []
  | (k2, v) :: rest => if k2 = k then rest else (k2, v) :: eraseA rest k

/-- The `ValueError` message Python's `str.rindex` raises. -/
def substrNotFoundMsg : String := "substring not found"

instance {ε α : Type} [DecidableEq ε] [DecidableEq α] : DecidableEq (Except ε α) := fun a b =>
  match a, b with
  | .error x, .error y =>
    match decEq x y with
    | isTrue h => isTrue (h ▸ rfl)
    | isFalse h => isFalse fun hc => h (Except.error.inj hc)
  | .error _, .ok _ => isFalse fun hc => Except.noConfusion hc
  | .ok _, .error _ => isFalse fun hc => Except.noConfusion hc
  | .ok x, .ok y =>
    match decEq x y with
    | isTrue h => isTrue (h ▸ rfl)
    | isFalse h => isFalse fun hc => h (Except.ok.inj hc)

/-- The matching loop of `generate_humann2_analysis_commands`
(humann2.py lines 62-78).  Each element pairs a forward filename with its
index-matched reverse filename (`none` when `reverse_seqs` is empty; the
lists have equal length once validation passed, so zipping is exactly
`reverse_seqs[i]`).  Returns the `samples` triples (path, run prefix,
sample name) and the leftover mapping; `.error` models an uncaught
`ValueError` from `rindex`.  A failed forward lookup (`KeyError`) is
silently skipped, as in the source's `except KeyError: pass`. -/
def matchLoop : List (String × Option String) → List (String × String) →
    Except String (List (String × String × String) × List (String × String))
  | [], m => .ok ([], m)
  | (fname, orev) :: rest, m =>
    match runPrefOf fname with
    | none => .error substrNotFoundMsg
    | some f =>
      match lookupA m f with
      | none => matchLoop rest m
      | some s =>
        match orev with
        | none =>
          match matchLoop rest (eraseA m f) with
          | .error e => .error e
          | .ok (smp, m2) => .ok ((fname, f, s) :: smp, m2)
        | some rname =>
          match runPrefOf rname with
          | none => .error substrNotFoundMsg
          | some fr =>
            match matchLoop rest (eraseA m f) with
            | .error e => .error e
            | .ok (smp, m2) => .ok ((fname, f, s) :: (rname, fr, s) :: smp, m2)

/-- The `ValueError` message for mismatched list lengths
(humann2.py lines 54-57). -/
def mismatchedMsg (fwd rev : List String) : String :=
  "Your reverse and forward files are of different length. Forward: " ++
    String.intercalate ", " fwd ++ ". Reverse: " ++
    String.intercalate ", " rev ++ "."

/-- The `ValueError` message for leftover mapping entries
(humann2.py lines 81-83). -/
def unmatchedMsg (m : List (String × String)) : String :=
  "Some run_prefix values do not match your sample names: " ++
    String.intercalate ", " (m.map Prod.fst)

/-- Models `os.path.join(out_dir, f)` for the cases this code can reach
(the second argument, a run prefix, is never an absolute path). -/
def pathJoin (d f : String) : String :=
  if d = "" then f
  else if d.data.getLastD ' ' == '/' then d ++ f
  else d ++ "/" ++ f

/-- The parameter flags (humann2.py line 88):
`['--%s "%s"' % (k, v) for k, v in viewitems(parameters) if v]`.
Falsy string values are exactly the empty string. -/
def paramTokens (parameters : List (String × String)) : List String :=
  (parameters.filter (fun kv => kv.2 ≠ "")).map
    (fun kv => "--" ++ kv.1 ++ " \"" ++ kv.2 ++ "\"")

/-- One command string (humann2.py lines 89-92) for a samples triple
(full path, run prefix, sample name).  Note the format string
`'... biom %s'` always inserts a space after `biom`. -/
def cmdString (outDir : String) (params : List String)
    (t : String × String × String) : String :=
  "humann2 --input \"" ++ t.1 ++ "\" --output \"" ++ pathJoin outDir t.2.1 ++
    "\" --output-basename \"" ++ t.2.2 ++ "\" --output-format biom " ++
    String.intercalate " " params

/-- The tail of `generate_humann2_analysis_commands` after validation and
sorting: matching loop, leftover check (lines 80-84), command
construction (lines 86-94). -/
def runCore (pairs : List (String × Option String)) (m : List (String × String))
    (outDir : String) (parameters : List (String × String)) :
    Except String (List String) :=
  match matchLoop pairs m with
  | .error e => .error e
  | .ok (samples, m2) =>
    if m2.isEmpty then
      .ok (samples.map (cmdString outDir (paramTokens parameters)))
    else .error (unmatchedMsg m2)

/-- Full outcome of a call to `generate_humann2_analysis_commands`.
Because the Python function sorts its list arguments in place, the
embedding also returns the post-call state of the caller's three mutable
arguments. -/
structure GenOutcome where
  result : Except String (List String)
  forwardAfter : List String
  reverseAfter : List String
  paramsAfter : List (String × String)

/-- `generate_humann2_analysis_commands` (humann2.py lines 16-94).
`sn_by_rp` stands for the result of the external loader
`get_sample_names_by_run_prefix(map_file)` (a collaborator from
`qiita_client`, outside this repository), modelled as an association
list in dict-iteration order. -/
def generate_humann2_analysis_commands (forward_seqs reverse_seqs : List String)
    (sn_by_rp : List (String × String)) (out_dir : String)
    (parameters : List (String × String)) : GenOutcome :=
  let fwd := sortStr forward_seqs
  if reverse_seqs.isEmpty then
    { result := runCore (fwd.map (fun x => (x, none))) sn_by_rp out_dir parameters
      forwardAfter := fwd
      reverseAfter := reverse_seqs
      paramsAfter := parameters }
  else if fwd.length ≠ reverse_seqs.length then
    { result := .error (mismatchedMsg fwd reverse_seqs)
      forwardAfter := fwd
      reverseAfter := reverse_seqs
      paramsAfter := parameters }
  else
    let rev := sortStr reverse_seqs
    { result := runCore (fwd.zip (rev.map some)) sn_by_rp out_dir parameters
      forwardAfter := fwd
      reverseAfter := rev
      paramsAfter := parameters }

/-- The execution loop of the orchestrator (humann2.py lines 142-150),
threading the index `i` of the `%d/%d` progress counter.  `exec` models
`system_call`, returning (stdout, stderr, exit status).  Returns the
error message of the first failing command (or `none`), the commands
actually handed to `exec` in order, and the progress messages sent. -/
def stepLoop (exec : String → String × String × Int) (n : Nat) :
    List String → Nat → Option String × List String × List String
  | [], _ => (none, [], [])
  | cmd :: rest, i =>
    let msg := "Step 3 of 5: Executing HUMANn2, job " ++ toString i ++ "/" ++ toString n
    let r := exec cmd
    if r.2.2 ≠ 0 then
      (some ("Error running HUMANn2:\nStd out: " ++ r.1 ++ "\nStd err: " ++ r.2.1),
       [cmd], [msg])
    else
      let rec2 := stepLoop exec n rest (i + 1)
      (rec2.1, cmd :: rec2.2.1, msg :: rec2.2.2)

/-- The `humann2` orchestrator (humann2.py lines 97-159), abstracted over
its collaborators: `sn_by_rp` is the loaded sample mapping,
`raw_forward_seqs`/`raw_reverse_seqs` the file lists fetched from the
artifact metadata (`none` when the artifact has no `raw_reverse_seqs`
key), `exec` the process-execution service.  The outer `Except` models
an uncaught Python exception (a `KeyError` from `del parameters['input']`
or a `ValueError` from command generation); `.ok` carries the returned
triple plus the executed-command and progress-message traces. -/
def humann2 (sn_by_rp : List (String × String)) (raw_forward_seqs : List String)
    (raw_reverse_seqs : Option (List String)) (out_dir : String)
    (parameters : List (String × String)) (exec : String → String × String × Int) :
    Except String ((Bool × Option (List String) × String) × List String × List String) :=
  match lookupA parameters "input" with
  | none => .error "KeyError: input"
  | some _ =>
    let params2 := eraseA parameters "input"
    let rs := match raw_reverse_seqs with | some r => r | none => []
    match (generate_humann2_analysis_commands raw_forward_seqs rs sn_by_rp
        out_dir params2).result with
    | .error e => .error e
    | .ok cmds =>
      match stepLoop exec cmds.length cmds 0 with
      | (some emsg, inv, msgs3) =>
        .ok ((false, none, emsg), inv,
          "Step 1 of 5: Collecting information" ::
            "Step 2 of 5: Generating HUMANn2 command" :: msgs3)
      | (none, inv, msgs3) =>
        .ok ((true, some [], ""), inv,
          "Step 1 of 5: Collecting information" ::
            "Step 2 of 5: Generating HUMANn2 command" ::
            (msgs3 ++ ["Step 4 of 5: Merging resulting tables",
                       "Step 5 of 5: Re-normalizing tables"]))

/-- A concrete execution service for the failure scenario: the command
generated for sample B fails with stdout `out2` and stderr `err2`, every
other command succeeds. -/
def failingExec : String → String × String × Int := fun s =>
  if s = "humann2 --input \"b.fastq\" --output \"o/b\" --output-basename \"B\" --output-format biom "
  then ("out2", "err2", 1) else ("", "", 0)

/-- A concrete execution service on which every command succeeds. -/
def successExec : String → String × String × Int := fun _ => ("", "", 0)

example : runPrefOf "dir/a_L001.fastq.gz" = some "a_L001" := by decide
example : runPrefOf "a.fastq.fastq" = some "a.fastq" := by decide
example : runPrefFirstOcc "a.fastq.fastq" = "a" := by decide
example : runPrefOf "fastq.gz" = none := by decide
example : runPrefOf "noext" = some "noext" := by decide

example :
    (generate_humann2_analysis_commands ["S2_L001.fastq.gz", "S1_L001.fastq.gz"]
      [] [("S1_L001", "SampleA"), ("S2_L001", "SampleB")] "out" []).result =
    .ok ["humann2 --input \"S1_L001.fastq.gz\" --output \"out/S1_L001\" --output-basename \"SampleA\" --output-format biom ",
         "humann2 --input \"S2_L001.fastq.gz\" --output \"out/S2_L001\" --output-basename \"SampleB\" --output-format biom "] := by
  decide

example :
    (generate_humann2_analysis_commands ["a.fastq"] [] [("a", "S"), ("b", "T")]
      "o" [("Threads", "4"), ("Mode", "")]).result =
    .error "Some run_prefix values do not match your sample names: b" := by
  decide

/-! ### Helper lemmas -/

theorem matchLoop_cons (fname : String) (orev : Option String)
    (rest : List (String × Option String)) (m : List (String × String)) :
    matchLoop ((fname, orev) :: rest) m =
      match runPrefOf fname with
      | none => .error substrNotFoundMsg
      | some f =>
        match lookupA m f with
        | none => matchLoop rest m
        | some s =>
          match orev with
          | none =>
            match matchLoop rest (eraseA m f) with
            | .error e => .error e
            | .ok (smp, m2) => .ok ((fname, f, s) :: smp, m2)
          | some rname =>
            match runPrefOf rname with
            | none => .error substrNotFoundMsg
            | some fr =>
              match matchLoop rest (eraseA m f) with
              | .error e => .error e
              | .ok (smp, m2) => .ok ((fname, f, s) :: (rname, fr, s) :: smp, m2) :=
  rfl

theorem lastIdxOf_none_no_occ (needle : List Char) (hne : needle ≠ []) :
    ∀ l : List Char, lastIdxOf needle l = none →
      ∀ k, startsWithL needle (l.drop k) = false := by
  intro l
  induction l with
  | nil =>
    intro _ k
    obtain ⟨a, as, rfl⟩ := List.exists_cons_of_ne_nil hne
    simp [startsWithL]
  | cons c rest ih =>
    intro h k
    simp only [lastIdxOf] at h
    cases hrest : lastIdxOf needle rest with
    | some n => rw [hrest] at h; exact absurd h (by simp)
    | none =>
      rw [hrest] at h
      have hstart : startsWithL needle (c :: rest) = false := by
        by_contra hcon
        rw [Bool.not_eq_false] at hcon
        rw [hcon] at h
        simp at h
      cases k with
      | zero => simpa using hstart
      | succ k => simpa using ih hrest k

theorem lastIdxOf_some_spec (needle : List Char) (hne : needle ≠ []) :
    ∀ (l : List Char) (n : Nat), lastIdxOf needle l = some n →
      startsWithL needle (l.drop n) = true ∧
      ∀ k, startsWithL needle (l.drop k) = true → k ≤ n := by
  intro l
  induction l with
  | nil => intro n h; simp [lastIdxOf] at h
  | cons c rest ih =>
    intro n h
    simp only [lastIdxOf] at h
    cases hrest : lastIdxOf needle rest with
    | some m =>
      rw [hrest] at h
      simp only [Option.some.injEq] at h
      obtain ⟨h1, h2⟩ := ih m hrest
      subst h
      refine ⟨by simpa using h1, ?_⟩
      intro k hk
      cases k with
      | zero => exact Nat.zero_le _
      | succ k =>
        have := h2 k (by simpa using hk)
        omega
    | none =>
      rw [hrest] at h
      by_cases hs : startsWithL needle (c :: rest) = true
      · rw [if_pos hs] at h
        simp only [Option.some.injEq] at h
        subst h
        refine ⟨by simpa using hs, ?_⟩
        intro k hk
        cases k with
        | zero => exact Nat.le_refl 0
        | succ k =>
          have := lastIdxOf_none_no_occ needle hne rest hrest k
          rw [List.drop_succ_cons] at hk
          rw [hk] at this
          exact absurd this (by simp)
      · rw [if_neg hs] at h
        exact absurd h (by simp)

theorem lookupA_eq_none_of_not_mem (m : List (String × String)) (k : String)
    (h : k ∉ m.map Prod.fst) : lookupA m k = none := by
  induction m with
  | nil => rfl
  | cons p rest ih =>
    obtain ⟨k2, v⟩ := p
    simp only [List.map_cons, List.mem_cons] at h
    push_neg at h
    simp only [lookupA]
    rw [if_neg (fun hc => h.1 hc.symm)]
    exact ih h.2

theorem lookupA_eraseA_self (m : List (String × String)) (k : String)
    (hnd : (m.map Prod.fst).Nodup) : lookupA (eraseA m k) k = none := by
  induction m with
  | nil => rfl
  | cons p rest ih =>
    obtain ⟨k2, v⟩ := p
    simp only [List.map_cons, List.nodup_cons] at hnd
    by_cases hk : k2 = k
    · subst hk
      simp only [eraseA, if_pos rfl]
      exact lookupA_eq_none_of_not_mem rest k2 hnd.1
    · simp only [eraseA, if_neg hk, lookupA]
      exact ih hnd.2

theorem sortStr_sorted (l : List String) : (sortStr l).Sorted strLe :=
  List.sorted_insertionSort strLe l

theorem sortStr_perm (l : List String) : List.Perm (sortStr l) l :=
  List.perm_insertionSort strLe l

theorem sortStr_length (l : List String) : (sortStr l).length = l.length :=
  (sortStr_perm l).length_eq

/-- The branch structure of `generate_humann2_analysis_commands` on its
`result` field, in terms of the pair list handed to the matching loop. -/
theorem generate_result_eq (fwd rev : List String) (m : List (String × String))
    (d : String) (ps : List (String × String)) :
    (generate_humann2_analysis_commands fwd rev m d ps).result =
      if rev.isEmpty then
        runCore ((sortStr fwd).map (fun x => (x, none))) m d ps
      else if (sortStr fwd).length ≠ rev.length then
        .error (mismatchedMsg (sortStr fwd) rev)
      else
        runCore ((sortStr fwd).zip ((sortStr rev).map some)) m d ps := by
  unfold generate_humann2_analysis_commands
  by_cases hre : rev.isEmpty
  · simp [hre]
  · by_cases hlen : (sortStr fwd).length = rev.length
    · simp [hre, hlen]
    · simp [hre, hlen]

theorem runCore_eq_ok (pairs : List (String × Option String))
    (m : List (String × String)) (d : String) (ps : List (String × String))
    (cmds : List String) (h : runCore pairs m d ps = .ok cmds) :
    ∃ samples, matchLoop pairs m = .ok (samples, []) ∧
      cmds = samples.map (cmdString d (paramTokens ps)) := by
  unfold runCore at h
  split at h
  · exact absurd h (by simp)
  · next samples m2 heq =>
    split at h
    · next hm2 =>
      have hm2e : m2 = [] := by simpa [List.isEmpty_iff] using hm2
      subst hm2e
      simp only [Except.ok.injEq] at h
      exact ⟨samples, heq, h.symm⟩
    · exact absurd h (by simp)

theorem stepLoop_all_zero (exec : String → String × String × Int) (n : Nat) :
    ∀ (cmds : List String) (i : Nat), (∀ c ∈ cmds, (exec c).2.2 = 0) →
      ∃ msgs, stepLoop exec n cmds i = (none, cmds, msgs) ∧
        msgs.length = cmds.length := by
  intro cmds
  induction cmds with
  | nil => intro i _; exact ⟨[], rfl, rfl⟩
  | cons cmd rest ih =>
    intro i hall
    have hz : (exec cmd).2.2 = 0 := hall cmd (List.mem_cons_self _ _)
    obtain ⟨msgs, heq, hlen⟩ := ih (i + 1) (fun c hc => hall c (List.mem_cons_of_mem _ hc))
    refine ⟨("Step 3 of 5: Executing HUMANn2, job " ++ toString i ++ "/" ++ toString n)
      :: msgs, ?_, by simp [hlen]⟩
    simp only [stepLoop, hz, heq]
    simp

theorem stepLoop_first_fail (exec : String → String × String × Int) (n : Nat) :
    ∀ (pre : List String) (c : String) (post : List String) (i : Nat),
      (∀ c2 ∈ pre, (exec c2).2.2 = 0) → (exec c).2.2 ≠ 0 →
      ∃ msgs, stepLoop exec n (pre ++ c :: post) i =
        (some ("Error running HUMANn2:\nStd out: " ++ (exec c).1 ++
          "\nStd err: " ++ (exec c).2.1), pre ++ [c], msgs) := by
  intro pre
  induction pre with
  | nil =>
    intro c post i _ hc
    refine ⟨["Step 3 of 5: Executing HUMANn2, job " ++ toString i ++ "/" ++ toString n], ?_⟩
    simp only [List.nil_append, stepLoop, hc]
    simp [hc]
  | cons p rest ih =>
    intro c post i hpre hc
    have hz : (exec p).2.2 = 0 := hpre p (List.mem_cons_self _ _)
    obtain ⟨msgs, heq⟩ := ih c post (i + 1) (fun x hx => hpre x (List.mem_cons_of_mem _ hx)) hc
    refine ⟨("Step 3 of 5: Executing HUMANn2, job " ++ toString i ++ "/" ++ toString n)
      :: msgs, ?_⟩
    simp only [List.cons_append, stepLoop, hz]
    simp [heq]

theorem generate_paramsAfter (fwd rev : List String) (m : List (String × String))
    (d : String) (ps : List (String × String)) :
    (generate_humann2_analysis_commands fwd rev m d ps).paramsAfter = ps := by
  unfold generate_humann2_analysis_commands
  by_cases hre : rev.isEmpty <;> by_cases hlen : (sortStr fwd).length = rev.length <;>
    simp [hre, hlen]

theorem generate_forwardAfter (fwd rev : List String) (m : List (String × String))
    (d : String) (ps : List (String × String)) :
    (generate_humann2_analysis_commands fwd rev m d ps).forwardAfter = sortStr fwd := by
  unfold generate_humann2_analysis_commands
  by_cases hre : rev.isEmpty <;> by_cases hlen : (sortStr fwd).length = rev.length <;>
    simp [hre, hlen]

theorem generate_reverseAfter (fwd rev : List String) (m : List (String × String))
    (d : String) (ps : List (String × String)) :
    (generate_humann2_analysis_commands fwd rev m d ps).reverseAfter =
      if rev.isEmpty then rev
      else if (sortStr fwd).length = rev.length then sortStr rev
      else rev := by
  unfold generate_humann2_analysis_commands
  by_cases hre : rev.isEmpty <;> by_cases hlen : (sortStr fwd).length = rev.length <;>
    simp [hre, hlen]

/-- Shape of every command produced by the core once matching succeeded. -/
theorem runCore_cmd_shape (pairs : List (String × Option String))
    (m : List (String × String)) (d : String) (ps : List (String × String))
    (cmds : List String) (c : String)
    (h : runCore pairs m d ps = .ok cmds) (hcm : c ∈ cmds) :
    ∃ ffn fn s, c =
      "humann2 --input \"" ++ ffn ++ "\" --output \"" ++ pathJoin d fn ++
        "\" --output-basename \"" ++ s ++ "\" --output-format biom " ++
        String.intercalate " " ((ps.filter (fun kv => kv.2 ≠ "")).map
          (fun kv => "--" ++ kv.1 ++ " \"" ++ kv.2 ++ "\"")) := by
  obtain ⟨samples, hml, hcmds⟩ := runCore_eq_ok pairs m d ps cmds h
  subst hcmds
  obtain ⟨t, ht, hfc⟩ := List.mem_map.mp hcm
  exact ⟨t.1, t.2.1, t.2.2, by rw [← hfc]; rfl⟩

/-! ### Claim theorems -/

/-- C1 counterexample: the code strips from the LAST occurrence of
`.fastq` (Python `rindex`), not from the first occurrence as the claim
states.  On `"a.fastq.fastq"` the code's run prefix is `"a.fastq"` while
the claimed first-occurrence rule yields `"a"`; with the mapping
`[("a", "S1")]` the claim would predict a successful lookup, but the code
reports `a` as unmatched. -/
theorem runPref_first_occ_cex :
    runPrefOf "a.fastq.fastq" = some "a.fastq" ∧
    runPrefFirstOcc "a.fastq.fastq" = "a" ∧
    (generate_humann2_analysis_commands ["a.fastq.fastq"] [] [("a", "S1")] "d" []).result =
      .error "Some run_prefix values do not match your sample names: a" ∧
    some ("a.fastq" : String) ≠ some ("a" : String) := by
  refine ⟨by decide, by decide, by decide, by decide⟩

/-- C1 (amended): the command generator derives the run prefix by removing
the directory part and lower-casing only for suffix detection; when the
detection test fires (`fastq` is a whole component among the last
up-to-three dot-separated components of the lower-cased base name), it
strips everything from the LAST occurrence of `.fastq` (case-insensitive)
onward — not the first — and the lookup key is the original-case substring
up to that point; when no `.fastq` substring exists at all despite the
test firing, the call raises (`none`). -/
theorem runPref_strips_last_fastq (fname : String)
    (hc : (rsplitDot2 (toLowerL (basenameL fname.data))).contains fastqChars = true) :
    (runPrefOf fname = none ∧
      ∀ k, startsWithL dotFastqChars ((toLowerL (basenameL fname.data)).drop k) = false) ∨
    ∃ n, runPrefOf fname = some ⟨(basenameL fname.data).take n⟩ ∧
      startsWithL dotFastqChars ((toLowerL (basenameL fname.data)).drop n) = true ∧
      ∀ k, startsWithL dotFastqChars ((toLowerL (basenameL fname.data)).drop k) = true →
        k ≤ n := by
  have hval : runPrefOf fname =
      match lastIdxOf dotFastqChars (toLowerL (basenameL fname.data)) with
      | some n => some ⟨(basenameL fname.data).take n⟩
      | none => none := by
    have hc2 : fastqChars ∈ rsplitDot2 (toLowerL (basenameL fname.data)) := by
      simpa using hc
    simp [runPrefOf, hc2]
  cases hlast : lastIdxOf dotFastqChars (toLowerL (basenameL fname.data)) with
  | none =>
    left
    refine ⟨by rw [hval, hlast], fun k => ?_⟩
    exact lastIdxOf_none_no_occ dotFastqChars (by decide) _ hlast k
  | some n =>
    right
    obtain ⟨h1, h2⟩ := lastIdxOf_some_spec dotFastqChars (by decide) _ n hlast
    exact ⟨n, by rw [hval, hlast], h1, h2⟩

/-- C1 amended-claim witness at the counterexample filename. -/
theorem runPref_strips_last_fastq_witness :
    (runPrefOf "a.fastq.fastq" = none ∧
      ∀ k, startsWithL dotFastqChars
        ((toLowerL (basenameL "a.fastq.fastq".data)).drop k) = false) ∨
    ∃ n, runPrefOf "a.fastq.fastq" = some ⟨(basenameL "a.fastq.fastq".data).take n⟩ ∧
      startsWithL dotFastqChars
        ((toLowerL (basenameL "a.fastq.fastq".data)).drop n) = true ∧
      ∀ k, startsWithL dotFastqChars
        ((toLowerL (basenameL "a.fastq.fastq".data)).drop k) = true → k ≤ n :=
  runPref_strips_last_fastq "a.fastq.fastq" (by decide)

/-- C2 counterexample: when every parameter value is falsy the emitted
command carries a trailing space after `biom` (the Python format string is
`'... --output-format biom %s'`), so the command is not exactly the base
string the claim prescribes for zero parameter tokens. -/
theorem cmd_trailing_space_cex :
    (generate_humann2_analysis_commands ["x.fastq"] [] [("x", "S1")] "o"
        [("Mode", "")]).result =
      .ok ["humann2 --input \"x.fastq\" --output \"o/x\" --output-basename \"S1\" --output-format biom "] ∧
    ("humann2 --input \"x.fastq\" --output \"o/x\" --output-basename \"S1\" --output-format biom " : String) ≠
      "humann2 --input \"x.fastq\" --output \"o/x\" --output-basename \"S1\" --output-format biom" := by
  refine ⟨by decide, by decide⟩

/-- C2 (amended): every generated command is the fixed
`humann2 --input "…" --output "…" --output-basename "…" --output-format biom`
base followed by a single space and the space-joined `--key "value"`
tokens of exactly the non-falsy parameters, in the mapping's iteration
order; with no qualifying parameter the command therefore ends in a
trailing space after `biom`. -/
theorem generated_command_shape (fwd rev : List String) (m : List (String × String))
    (d : String) (ps : List (String × String)) (cmds : List String) (c : String)
    (h : (generate_humann2_analysis_commands fwd rev m d ps).result = .ok cmds)
    (hcm : c ∈ cmds) :
    ∃ ffn fn s, c =
      "humann2 --input \"" ++ ffn ++ "\" --output \"" ++ pathJoin d fn ++
        "\" --output-basename \"" ++ s ++ "\" --output-format biom " ++
        String.intercalate " " ((ps.filter (fun kv => kv.2 ≠ "")).map
          (fun kv => "--" ++ kv.1 ++ " \"" ++ kv.2 ++ "\"")) := by
  rw [generate_result_eq] at h
  split at h
  · exact runCore_cmd_shape _ _ _ _ _ _ h hcm
  · split at h
    · exact absurd h (by simp)
    · exact runCore_cmd_shape _ _ _ _ _ _ h hcm

/-- C2 amended-claim witness, on the spec's own example parameters. -/
theorem generated_command_shape_witness :
    ∃ ffn fn s,
      ("humann2 --input \"x.fastq\" --output \"o/x\" --output-basename \"S\" --output-format biom --Threads \"4\"" : String) =
      "humann2 --input \"" ++ ffn ++ "\" --output \"" ++ pathJoin "o" fn ++
        "\" --output-basename \"" ++ s ++ "\" --output-format biom " ++
        String.intercalate " " (([("Threads", "4"), ("Mode", "")].filter
          (fun kv => kv.2 ≠ "")).map
          (fun kv => "--" ++ kv.1 ++ " \"" ++ kv.2 ++ "\"")) :=
  generated_command_shape ["x.fastq"] [] [("x", "S")] "o"
    [("Threads", "4"), ("Mode", "")]
    ["humann2 --input \"x.fastq\" --output \"o/x\" --output-basename \"S\" --output-format biom --Threads \"4\""]
    "humann2 --input \"x.fastq\" --output \"o/x\" --output-basename \"S\" --output-format biom --Threads \"4\""
    (by decide) (by decide)

/-- C3: with a non-empty reverse list of mismatching length the generator
fails with the `ValueError` whose message embeds the (sorted) forward
file list and the reverse file list, and the result does not depend on
the sample mapping at all — no lookup or command construction happens. -/
theorem mismatched_lengths_error (fwd rev : List String) (m m2 : List (String × String))
    (d : String) (ps : List (String × String))
    (hne : rev ≠ []) (hlen : fwd.length ≠ rev.length) :
    (generate_humann2_analysis_commands fwd rev m d ps).result =
      .error ("Your reverse and forward files are of different length. Forward: " ++
        String.intercalate ", " (sortStr fwd) ++ ". Reverse: " ++
        String.intercalate ", " rev ++ ".") ∧
    (generate_humann2_analysis_commands fwd rev m d ps).result =
      (generate_humann2_analysis_commands fwd rev m2 d ps).result := by
  have hre : rev.isEmpty = false := by simpa [List.isEmpty_iff] using hne
  have hl2 : (sortStr fwd).length ≠ rev.length := by
    rw [sortStr_length]; exact hlen
  constructor
  · rw [generate_result_eq]
    simp [hre, hl2, mismatchedMsg]
  · rw [generate_result_eq, generate_result_eq]
    simp [hre, hl2]

/-- C3 witness. -/
theorem mismatched_lengths_error_witness :
    (generate_humann2_analysis_commands ["b", "a"] ["r"] [("x", "y")] "d" []).result =
      .error ("Your reverse and forward files are of different length. Forward: " ++
        String.intercalate ", " (sortStr ["b", "a"]) ++ ". Reverse: " ++
        String.intercalate ", " ["r"] ++ ".") ∧
    (generate_humann2_analysis_commands ["b", "a"] ["r"] [("x", "y")] "d" []).result =
      (generate_humann2_analysis_commands ["b", "a"] ["r"] [] "d" []).result :=
  mismatched_lengths_error ["b", "a"] ["r"] [("x", "y")] [] "d" [] (by decide) (by decide)

/-- C4: a forward file whose run prefix is absent from the mapping is
silently skipped by the matching loop (no entry, no error); after the
loop, leftover mapping entries make the generator raise the
unmatched-samples `ValueError` listing exactly the leftover run-prefix
keys, and an emptied mapping makes it return the command list without
raising. -/
theorem skip_unmatched_and_leftover_error :
    (∀ (fname : String) (orev : Option String) (rest : List (String × Option String))
        (m : List (String × String)) (f : String),
        runPrefOf fname = some f → lookupA m f = none →
        matchLoop ((fname, orev) :: rest) m = matchLoop rest m) ∧
    (∀ (pairs : List (String × Option String)) (m : List (String × String))
        (d : String) (ps : List (String × String))
        (samples : List (String × String × String)) (m2 : List (String × String)),
        matchLoop pairs m = .ok (samples, m2) →
        (m2 ≠ [] → runCore pairs m d ps =
          .error ("Some run_prefix values do not match your sample names: " ++
            String.intercalate ", " (m2.map Prod.fst))) ∧
        (m2 = [] → runCore pairs m d ps =
          .ok (samples.map (cmdString d (paramTokens ps))))) := by
  constructor
  · intro fname orev rest m f hf hl
    simp only [matchLoop_cons, hf, hl]
  · intro pairs m d ps samples m2 h
    constructor
    · intro hne
      have he : m2.isEmpty = false := by simpa [List.isEmpty_iff] using hne
      unfold runCore
      rw [h]
      simp [he, unmatchedMsg]
    · intro he
      subst he
      unfold runCore
      rw [h]
      simp

/-- C4 witness. -/
theorem skip_unmatched_and_leftover_error_witness :
    matchLoop [("b.fastq", none)] [("a", "S")] = matchLoop [] [("a", "S")] ∧
    runCore [] [("a", "S")] "d" [] =
      .error ("Some run_prefix values do not match your sample names: " ++
        String.intercalate ", " ([("a", "S")].map Prod.fst)) ∧
    runCore [("a.fastq", none)] [("a", "S")] "d" [] =
      .ok ([("a.fastq", "a", "S")].map (cmdString "d" (paramTokens []))) :=
  ⟨skip_unmatched_and_leftover_error.1 "b.fastq" none [] [("a", "S")] "b"
      (by decide) (by decide),
   (skip_unmatched_and_leftover_error.2 [] [("a", "S")] "d" [] [] [("a", "S")]
      (by decide)).1 (by decide),
   (skip_unmatched_and_leftover_error.2 [("a.fastq", none)] [("a", "S")] "d" []
      [("a.fastq", "a", "S")] [] (by decide)).2 rfl⟩

/-- C5: with a non-empty reverse list of equal length, both lists are
sorted lexicographically and paired positionally (the zip is exactly
`reverse_seqs[i]` for the i-th sorted forward file), and a matched
forward file makes its index-mate carry the SAME sample name, with the
mapping entry erased exactly once before the rest of the loop runs. -/
theorem sorted_pairing_same_sample (fwd rev : List String) (m : List (String × String))
    (d : String) (ps : List (String × String))
    (hne : rev ≠ []) (hlen : fwd.length = rev.length) :
    List.Sorted strLe (sortStr fwd) ∧ List.Sorted strLe (sortStr rev) ∧
    List.Perm (sortStr fwd) fwd ∧ List.Perm (sortStr rev) rev ∧
    (generate_humann2_analysis_commands fwd rev m d ps).result =
      runCore ((sortStr fwd).zip ((sortStr rev).map some)) m d ps ∧
    (∀ (fname rname : String) (rest : List (String × Option String))
        (m1 : List (String × String)) (f s : String),
        runPrefOf fname = some f → lookupA m1 f = some s →
        matchLoop ((fname, some rname) :: rest) m1 =
          match runPrefOf rname with
          | none => .error substrNotFoundMsg
          | some fr =>
            match matchLoop rest (eraseA m1 f) with
            | .error e => .error e
            | .ok (smp, m2) => .ok ((fname, f, s) :: (rname, fr, s) :: smp, m2)) := by
  refine ⟨sortStr_sorted fwd, sortStr_sorted rev, sortStr_perm fwd, sortStr_perm rev, ?_, ?_⟩
  · have hre : rev.isEmpty = false := by simpa [List.isEmpty_iff] using hne
    have hl2 : (sortStr fwd).length = rev.length := by
      rw [sortStr_length]; exact hlen
    rw [generate_result_eq]
    simp [hre, hl2]
  · intro fname rname rest m1 f s hf hl
    simp only [matchLoop_cons, hf, hl]

/-- C5 witness. -/
theorem sorted_pairing_same_sample_witness :
    List.Sorted strLe (sortStr ["b.fastq"]) ∧ List.Sorted strLe (sortStr ["r.fastq"]) ∧
    List.Perm (sortStr ["b.fastq"]) ["b.fastq"] ∧
    List.Perm (sortStr ["r.fastq"]) ["r.fastq"] ∧
    (generate_humann2_analysis_commands ["b.fastq"] ["r.fastq"] [("b", "S")] "o" []).result =
      runCore ((sortStr ["b.fastq"]).zip ((sortStr ["r.fastq"]).map some))
        [("b", "S")] "o" [] ∧
    (∀ (fname rname : String) (rest : List (String × Option String))
        (m1 : List (String × String)) (f s : String),
        runPrefOf fname = some f → lookupA m1 f = some s →
        matchLoop ((fname, some rname) :: rest) m1 =
          match runPrefOf rname with
          | none => .error substrNotFoundMsg
          | some fr =>
            match matchLoop rest (eraseA m1 f) with
            | .error e => .error e
            | .ok (smp, m2) => .ok ((fname, f, s) :: (rname, fr, s) :: smp, m2)) :=
  sorted_pairing_same_sample ["b.fastq"] ["r.fastq"] [("b", "S")] "o" []
    (by decide) rfl

/-- C6: the orchestrator hands commands to the execution service in
strict list order; at the first non-zero exit status it returns
`(False, no artifacts, a message embedding that command's captured stdout
and stderr)`, and the trace of executed commands is exactly the
successful prelude plus the failing command — nothing after it is ever
invoked. -/
theorem orchestrator_stops_at_first_failure
    (snByRp : List (String × String)) (fwdS : List String)
    (revO : Option (List String)) (d : String) (ps : List (String × String))
    (exec : String → String × String × Int) (aid : String)
    (pre post : List String) (c : String)
    (hin : lookupA ps "input" = some aid)
    (hgen : (generate_humann2_analysis_commands fwdS
        (match revO with | some r => r | none => []) snByRp d
        (eraseA ps "input")).result = .ok (pre ++ c :: post))
    (hpre : ∀ c2 ∈ pre, (exec c2).2.2 = 0)
    (hc : (exec c).2.2 ≠ 0) :
    ∃ msgs, humann2 snByRp fwdS revO d ps exec =
      .ok ((false, none,
        "Error running HUMANn2:\nStd out: " ++ (exec c).1 ++
          "\nStd err: " ++ (exec c).2.1),
        pre ++ [c], msgs) := by
  obtain ⟨msgs3, hstep⟩ :=
    stepLoop_first_fail exec (pre ++ c :: post).length pre c post 0 hpre hc
  refine ⟨"Step 1 of 5: Collecting information" ::
    "Step 2 of 5: Generating HUMANn2 command" :: msgs3, ?_⟩
  simp only [humann2, hin, hgen, hstep]

/-- C6 witness: three generated commands, the second fails, the trace
stops after two executions. -/
theorem orchestrator_stops_at_first_failure_witness :
    ∃ msgs, humann2 [("a", "A"), ("b", "B"), ("c", "C")]
        ["a.fastq", "b.fastq", "c.fastq"] none "o" [("input", "42")] failingExec =
      .ok ((false, none,
        "Error running HUMANn2:\nStd out: " ++
          (failingExec "humann2 --input \"b.fastq\" --output \"o/b\" --output-basename \"B\" --output-format biom ").1 ++
          "\nStd err: " ++
          (failingExec "humann2 --input \"b.fastq\" --output \"o/b\" --output-basename \"B\" --output-format biom ").2.1),
        ["humann2 --input \"a.fastq\" --output \"o/a\" --output-basename \"A\" --output-format biom ",
         "humann2 --input \"b.fastq\" --output \"o/b\" --output-basename \"B\" --output-format biom "],
        msgs) :=
  orchestrator_stops_at_first_failure [("a", "A"), ("b", "B"), ("c", "C")]
    ["a.fastq", "b.fastq", "c.fastq"] none "o" [("input", "42")] failingExec "42"
    ["humann2 --input \"a.fastq\" --output \"o/a\" --output-basename \"A\" --output-format biom "]
    ["humann2 --input \"c.fastq\" --output \"o/c\" --output-basename \"C\" --output-format biom "]
    "humann2 --input \"b.fastq\" --output \"o/b\" --output-basename \"B\" --output-format biom "
    (by decide) (by decide) (by decide) (by decide)

/-- C7 counterexample: the generator sorts the caller's `forward_seqs`
list in place, so after a call the list does not hold its elements in the
original order. -/
theorem generator_sorts_in_place_cex :
    (generate_humann2_analysis_commands ["b.fastq", "a.fastq"] []
        [("a", "S1"), ("b", "S2")] "o" []).forwardAfter = ["a.fastq", "b.fastq"] ∧
    (["a.fastq", "b.fastq"] : List String) ≠ ["b.fastq", "a.fastq"] := by
  refine ⟨by decide, by decide⟩

/-- C7 (amended): the generator touches nothing but its two list
arguments, which it sorts in place: the parameters mapping is returned
unchanged, both lists keep exactly their elements (as permutations), the
forward list is always left sorted, and the reverse list is left sorted
whenever pairing proceeds (non-empty and length-matched).  Being a pure
function of its arguments in this embedding, it performs no filesystem or
network access of its own. -/
theorem generator_mutation_profile (fwd rev : List String)
    (m : List (String × String)) (d : String) (ps : List (String × String)) :
    (generate_humann2_analysis_commands fwd rev m d ps).paramsAfter = ps ∧
    (generate_humann2_analysis_commands fwd rev m d ps).forwardAfter = sortStr fwd ∧
    List.Perm (generate_humann2_analysis_commands fwd rev m d ps).forwardAfter fwd ∧
    List.Sorted strLe (generate_humann2_analysis_commands fwd rev m d ps).forwardAfter ∧
    List.Perm (generate_humann2_analysis_commands fwd rev m d ps).reverseAfter rev ∧
    (rev ≠ [] → fwd.length = rev.length →
      (generate_humann2_analysis_commands fwd rev m d ps).reverseAfter = sortStr rev) := by
  refine ⟨generate_paramsAfter fwd rev m d ps, generate_forwardAfter fwd rev m d ps,
    ?_, ?_, ?_, ?_⟩
  · rw [generate_forwardAfter]; exact sortStr_perm fwd
  · rw [generate_forwardAfter]; exact sortStr_sorted fwd
  · rw [generate_reverseAfter]
    by_cases hre : rev.isEmpty
    · rw [if_pos hre]
    · rw [if_neg hre]
      by_cases hlen : (sortStr fwd).length = rev.length
      · rw [if_pos hlen]; exact sortStr_perm rev
      · rw [if_neg hlen]
  · intro hne hl
    have hre : rev.isEmpty = false := by simpa [List.isEmpty_iff] using hne
    have hl2 : (sortStr fwd).length = rev.length := by rw [sortStr_length]; exact hl
    rw [generate_reverseAfter, hre]
    simp [hl2]

/-- C7 amended-claim witness. -/
theorem generator_mutation_profile_witness :
    (generate_humann2_analysis_commands ["b", "a"] ["s", "r"] [] "o" [("k", "v")]).paramsAfter =
      [("k", "v")] ∧
    (generate_humann2_analysis_commands ["b", "a"] ["s", "r"] [] "o" [("k", "v")]).forwardAfter =
      sortStr ["b", "a"] ∧
    List.Perm (generate_humann2_analysis_commands ["b", "a"] ["s", "r"] [] "o"
      [("k", "v")]).forwardAfter ["b", "a"] ∧
    List.Sorted strLe (generate_humann2_analysis_commands ["b", "a"] ["s", "r"] [] "o"
      [("k", "v")]).forwardAfter ∧
    List.Perm (generate_humann2_analysis_commands ["b", "a"] ["s", "r"] [] "o"
      [("k", "v")]).reverseAfter ["s", "r"] ∧
    ((["s", "r"] : List String) ≠ [] → (["b", "a"] : List String).length = (["s", "r"] : List String).length →
      (generate_humann2_analysis_commands ["b", "a"] ["s", "r"] [] "o"
        [("k", "v")]).reverseAfter = sortStr ["s", "r"]) :=
  generator_mutation_profile ["b", "a"] ["s", "r"] [] "o" [("k", "v")]

/-- C8: when every generated command exits with status zero the
orchestrator reports all five step messages and returns exactly
`(True, [], "")` — success flag true, empty artifacts list, empty error
message. -/
theorem orchestrator_success
    (snByRp : List (String × String)) (fwdS : List String)
    (revO : Option (List String)) (d : String) (ps : List (String × String))
    (exec : String → String × String × Int) (aid : String) (cmds : List String)
    (hin : lookupA ps "input" = some aid)
    (hgen : (generate_humann2_analysis_commands fwdS
        (match revO with | some r => r | none => []) snByRp d
        (eraseA ps "input")).result = .ok cmds)
    (hall : ∀ c ∈ cmds, (exec c).2.2 = 0) :
    ∃ msgs3, humann2 snByRp fwdS revO d ps exec =
      .ok ((true, some [], ""), cmds,
        "Step 1 of 5: Collecting information" ::
          "Step 2 of 5: Generating HUMANn2 command" ::
          (msgs3 ++ ["Step 4 of 5: Merging resulting tables",
                     "Step 5 of 5: Re-normalizing tables"])) ∧
      msgs3.length = cmds.length := by
  obtain ⟨msgs3, hstep, hlen⟩ := stepLoop_all_zero exec cmds.length cmds 0 hall
  refine ⟨msgs3, ?_, hlen⟩
  simp only [humann2, hin, hgen, hstep]

/-- C8 witness: one generated command, exiting zero. -/
theorem orchestrator_success_witness :
    ∃ msgs3, humann2 [("a", "A")] ["a.fastq"] none "o" [("input", "42")] successExec =
      .ok ((true, some [], ""),
        ["humann2 --input \"a.fastq\" --output \"o/a\" --output-basename \"A\" --output-format biom "],
        "Step 1 of 5: Collecting information" ::
          "Step 2 of 5: Generating HUMANn2 command" ::
          (msgs3 ++ ["Step 4 of 5: Merging resulting tables",
                     "Step 5 of 5: Re-normalizing tables"])) ∧
      msgs3.length =
        ["humann2 --input \"a.fastq\" --output \"o/a\" --output-basename \"A\" --output-format biom "].length :=
  orchestrator_success [("a", "A")] ["a.fastq"] none "o" [("input", "42")] successExec "42"
    ["humann2 --input \"a.fastq\" --output \"o/a\" --output-basename \"A\" --output-format biom "]
    (by decide) (by decide) (by decide)

/-- C9: the generator is deterministic — two calls whose file lists,
mapping contents, output directory and parameter mapping coincide return
identical outcomes; no hidden state enters the embedding. -/
theorem generator_deterministic (f1 f2 r1 r2 : List String)
    (m1 m2 : List (String × String)) (d1 d2 : String)
    (p1 p2 : List (String × String))
    (hf : f1 = f2) (hr : r1 = r2) (hm : m1 = m2) (hd : d1 = d2) (hp : p1 = p2) :
    generate_humann2_analysis_commands f1 r1 m1 d1 p1 =
      generate_humann2_analysis_commands f2 r2 m2 d2 p2 := by
  subst hf; subst hr; subst hm; subst hd; subst hp; rfl

/-- C9 witness. -/
theorem generator_deterministic_witness :
    generate_humann2_analysis_commands ["a.fastq"] [] [("a", "S")] "o" [("k", "v")] =
      generate_humann2_analysis_commands ["a.fastq"] [] [("a", "S")] "o" [("k", "v")] :=
  generator_deterministic ["a.fastq"] ["a.fastq"] [] [] [("a", "S")] [("a", "S")]
    "o" "o" [("k", "v")] [("k", "v")] rfl rfl rfl rfl rfl

/-- C10: when two forward files share a run prefix present in the
mapping (mapping keys unique), the first consumes the entry; the second
then fails its lookup on the erased mapping, is silently skipped — the
combined loop records exactly one samples entry for the first file — and
passes the mapping state on unchanged, so it contributes nothing to the
unmatched-samples report. -/
theorem duplicate_runpref_only_first (f s : String) (m : List (String × String))
    (f1 f2 : String) (rest : List (String × Option String))
    (hnd : (m.map Prod.fst).Nodup)
    (h1 : runPrefOf f1 = some f) (h2 : runPrefOf f2 = some f)
    (hl : lookupA m f = some s) :
    lookupA (eraseA m f) f = none ∧
    (∀ rest2, matchLoop ((f2, none) :: rest2) (eraseA m f) =
      matchLoop rest2 (eraseA m f)) ∧
    matchLoop ((f1, none) :: (f2, none) :: rest) m =
      (match matchLoop rest (eraseA m f) with
       | .error e => .error e
       | .ok (smp, m2) => .ok ((f1, f, s) :: smp, m2)) := by
  have hnone : lookupA (eraseA m f) f = none := lookupA_eraseA_self m f hnd
  have hskip : ∀ rest2, matchLoop ((f2, none) :: rest2) (eraseA m f) =
      matchLoop rest2 (eraseA m f) := by
    intro rest2
    simp only [matchLoop_cons, h2, hnone]
  refine ⟨hnone, hskip, ?_⟩
  conv_lhs => rw [matchLoop_cons]
  simp only [h1, hl, hskip rest]

/-- C10 witness: `dir/a.fastq` and `a.fastq.gz` share run prefix `a`. -/
theorem duplicate_runpref_only_first_witness :
    lookupA (eraseA [("a", "S")] "a") "a" = none ∧
    (∀ rest2, matchLoop (("a.fastq.gz", none) :: rest2) (eraseA [("a", "S")] "a") =
      matchLoop rest2 (eraseA [("a", "S")] "a")) ∧
    matchLoop [("dir/a.fastq", none), ("a.fastq.gz", none)] [("a", "S")] =
      (match matchLoop [] (eraseA [("a", "S")] "a") with
       | .error e => .error e
       | .ok (smp, m2) => .ok (("dir/a.fastq", "a", "S") :: smp, m2)) :=
  duplicate_runpref_only_first "a" "S" [("a", "S")] "dir/a.fastq" "a.fastq.gz" []
    (by decide) (by decide) (by decide) (by decide)

end QpShotgun
